import Mathlib

/-!
Verification of the Battle Map VTT synchronization server (src/server_sync.py)
against its natural-language specification.

The embedding models the pieces the claims are about:

  - JSON-like values (`JVal`) standing for the Python values carried in
    Socket.IO payloads, tokens and persisted documents.  A token is an
    insertion-ordered mapping from string keys to values (`Token`), matching
    a Python dict.
  - The shared server state and the persisted documents (`World`):
    `tokens` and `map` are the fields of `shared_state`; `tokensFile` and
    `mapFile` hold the parsed contents of saved_tokens.json / saved_map.json;
    `imagesDir` is the set of file names in data/maps.
  - Each Socket.IO handler is a function from a session id, a payload and a
    `World` to the new `World` together with the ordered list of observable
    actions (`Act`): persistence writes and emits with their audience.
    The order of the returned action list is the order in which the Python
    handler performs them.

Modelling notes, kept close to the source:

  - Python truthiness (`truthy`) and Python `==` (`pyEq`) are modelled for
    the scalar values the handlers actually compare; the numeric/boolean
    cross-equality of Python (`0 == False`) is applied at the top level of a
    value, not inside nested containers, which no handler exercises.
  - `time.time()` is passed in as a `now : Nat` argument; `get_local_ip()`
    is the environment-dependent constant `server_ip`.
  - Python's `hash(str(token))` is process-seed randomized; it is modelled
    by the fixed content-determined stand-in `contentHash` (a string hash of
    the Python repr of the token).  No result below depends on the concrete
    hash values, only on equal tokens hashing equally, which holds for any
    function.
  - `base64.b64decode` (with its default `validate=False`) discards
    non-alphabet characters and then fails when the remaining length is not
    a multiple of four; `b64decodable` models exactly this acceptance
    condition, which is what the claims exercise.
  - json.dump/json.load round-trip faithfully on the JSON-representable
    documents the server writes, so persisted files are modelled by their
    parsed `JVal` document; `FileRead` distinguishes an absent file, an
    unreadable file and a JSON decode failure from a parsed document.
-/

/-- JSON-like values as carried in Socket.IO payloads and persisted files. -/
inductive JVal where
  | null
  | bool (b : Bool)
  | int (n : Int)
  | str (s : String)
  | arr (xs : List JVal)
  | obj (fields : List (String × JVal))

/-- A Python dict with string keys, in insertion order, as used for tokens
and event payloads. -/
abbrev Token := List (String × JVal)

mutual

def decEqJVal : (a b : JVal) → Decidable (a = b)
  | .null, .null => .isTrue rfl
  | .bool a, .bool b =>
    if h : a = b then .isTrue (by rw [h]) else .isFalse (fun hh => h (JVal.bool.inj hh))
  | .int a, .int b =>
    if h : a = b then .isTrue (by rw [h]) else .isFalse (fun hh => h (JVal.int.inj hh))
  | .str a, .str b =>
    if h : a = b then .isTrue (by rw [h]) else .isFalse (fun hh => h (JVal.str.inj hh))
  | .arr xs, .arr ys =>
    match decEqJList xs ys with
    | .isTrue h => .isTrue (by rw [h])
    | .isFalse h => .isFalse (fun hh => h (JVal.arr.inj hh))
  | .obj fs, .obj gs =>
    match decEqJFields fs gs with
    | .isTrue h => .isTrue (by rw [h])
    | .isFalse h => .isFalse (fun hh => h (JVal.obj.inj hh))
  | .null, .bool _ => .isFalse nofun
  | .null, .int _ => .isFalse nofun
  | .null, .str _ => .isFalse nofun
  | .null, .arr _ => .isFalse nofun
  | .null, .obj _ => .isFalse nofun
  | .bool _, .null => .isFalse nofun
  | .bool _, .int _ => .isFalse nofun
  | .bool _, .str _ => .isFalse nofun
  | .bool _, .arr _ => .isFalse nofun
  | .bool _, .obj _ => .isFalse nofun
  | .int _, .null => .isFalse nofun
  | .int _, .bool _ => .isFalse nofun
  | .int _, .str _ => .isFalse nofun
  | .int _, .arr _ => .isFalse nofun
  | .int _, .obj _ => .isFalse nofun
  | .str _, .null => .isFalse nofun
  | .str _, .bool _ => .isFalse nofun
  | .str _, .int _ => .isFalse nofun
  | .str _, .arr _ => .isFalse nofun
  | .str _, .obj _ => .isFalse nofun
  | .arr _, .null => .isFalse nofun
  | .arr _, .bool _ => .isFalse nofun
  | .arr _, .int _ => .isFalse nofun
  | .arr _, .str _ => .isFalse nofun
  | .arr _, .obj _ => .isFalse nofun
  | .obj _, .null => .isFalse nofun
  | .obj _, .bool _ => .isFalse nofun
  | .obj _, .int _ => .isFalse nofun
  | .obj _, .str _ => .isFalse nofun
  | .obj _, .arr _ => .isFalse nofun

def decEqJList : (a b : List JVal) → Decidable (a = b)
  | [], [] => .isTrue rfl
  | [], _ :: _ => .isFalse nofun
  | _ :: _, [] => .isFalse nofun
  | x :: xs, y :: ys =>
    match decEqJVal x y with
    | .isFalse h => .isFalse (fun hh => h (List.cons.inj hh).1)
    | .isTrue h1 =>
      match decEqJList xs ys with
      | .isTrue h2 => .isTrue (by rw [h1, h2])
      | .isFalse h2 => .isFalse (fun hh => h2 (List.cons.inj hh).2)

def decEqJFields : (a b : List (String × JVal)) → Decidable (a = b)
  | [], [] => .isTrue rfl
  | [], _ :: _ => .isFalse nofun
  | _ :: _, [] => .isFalse nofun
  | (k, v) :: xs, (k2, v2) :: ys =>
    if hk : k = k2 then
      match decEqJVal v v2 with
      | .isFalse h => .isFalse (fun hh => h (by
          have h1 := (List.cons.inj hh).1
          exact (Prod.mk.injEq _ _ _ _ ▸ h1).2))
      | .isTrue hv =>
        match decEqJFields xs ys with
        | .isTrue h2 => .isTrue (by rw [hk, hv, h2])
        | .isFalse h2 => .isFalse (fun hh => h2 (List.cons.inj hh).2)
    else .isFalse (fun hh => hk (by
      have h1 := (List.cons.inj hh).1
      exact (Prod.mk.injEq _ _ _ _ ▸ h1).1))

end

instance : DecidableEq JVal := decEqJVal

/-- Python truthiness of a value, as used by `if not token.get(...)`-style
guards in the source. -/
def truthy : JVal → Bool
  | .null => false
  | .bool b => b
  | .int n => n != 0
  | .str s => !s.isEmpty
  | .arr xs => !xs.isEmpty
  | .obj fs => !fs.isEmpty

/-- Normalization underlying Python `==` on the values the handlers compare:
booleans compare equal to their numeric value.  (Python applies this inside
nested containers as well; no handler compares nested containers, so the
top-level normalization suffices for this development.) -/
def pyKey : JVal → JVal
  | .bool b => .int (if b then 1 else 0)
  | v => v

/-- Python `==` on payload/token values. -/
def pyEq (a b : JVal) : Bool := pyKey a == pyKey b

mutual

/-- Python `repr` of a value (`str` of a dict uses the repr of its parts). -/
def pyRepr : JVal → String
  | .null => "None"
  | .bool true => "True"
  | .bool false => "False"
  | .int n => toString n
  | .str s => "'" ++ s ++ "'"
  | .arr xs => "[" ++ pyReprList xs ++ "]"
  | .obj fs => "\x7b" ++ pyReprFields fs ++ "\x7d"

def pyReprList : List JVal → String
  | [] => ""
  | [x] => pyRepr x
  | x :: xs => pyRepr x ++ ", " ++ pyReprList xs

def pyReprFields : List (String × JVal) → String
  | [] => ""
  | [(k, v)] => "'" ++ k ++ "': " ++ pyRepr v
  | (k, v) :: rest => "'" ++ k ++ "': " ++ pyRepr v ++ ", " ++ pyReprFields rest

end

/-- Python `str` of a value, as interpolated by the f-strings of the source
(a string interpolates as itself, other values via their repr). -/
def pyStr : JVal → String
  | .str s => s
  | v => pyRepr v

/-- First value stored under key `k`, if any (`k in d` / successful lookup). -/
def tget (t : Token) (k : String) : Option JVal :=
  (t.find? (fun kv => kv.1 == k)).map (fun kv => kv.2)

/-- Python `d.get(k)`: the stored value, defaulting to `None`. -/
def dget (t : Token) (k : String) : JVal :=
  (tget t k).getD .null

/-- Python `d.get(k, default)`. -/
def dgetD (t : Token) (k : String) (d : JVal) : JVal :=
  (tget t k).getD d

/-- Python `d[k] = v`: replace the value at an existing key in place, else
append the new key at the end (dict insertion order). -/
def dset : Token → String → JVal → Token
  | [], k, v => [(k, v)]
  | (k1, v1) :: rest, k, v =>
    if k1 == k then (k, v) :: rest else (k1, v1) :: dset rest k v

/-- Python `for key, value in data.items(): existing[key] = value`
(the merge loop of `add_token`). -/
def mergeInto (data : Token) (t : Token) : Token :=
  data.foldl (fun acc kv => dset acc kv.1 kv.2) t

/-- Apply `f` to the first element satisfying `p` (the in-place mutation of
the dict object returned by `find_token`). -/
def updateFirst (p : Token → Bool) (f : Token → Token) : List Token → List Token
  | [] => []
  | t :: ts => if p t then f t :: ts else t :: updateFirst p f ts

/-- A simple fixed string hash: stand-in for Python's process-seed randomized
`hash` builtin.  Only the functionality (equal strings hash equally) is ever
used by the development. -/
def strHash (s : String) : Int :=
  s.toList.foldl (fun h c => (h * 31 + (c.toNat : Int)) % 1000003) 0

/-- Stand-in for `hash(str(token))` in `request_initial_state`. -/
def contentHash (t : Token) : Int := strHash (pyRepr (.obj t))

/-- Stand-in for `get_local_ip()`, which depends on the host network. -/
def server_ip : String := "127.0.0.1"

/-- The prefix test `s.startswith(pre)`. -/
def strStartsWith (s pre : String) : Bool := pre.toList.isPrefixOf s.toList

/-- The suffix test used to state claims about file extensions. -/
def strEndsWith (s suf : String) : Bool := suf.toList.isSuffixOf s.toList

/-- Split a character list at the first occurrence of `c`
(Python `s.split(c, 1)` when it yields two parts; `none` when `c` is absent,
in which case the two-target unpacking in the source raises). -/
def splitFirst (c : Char) : List Char → Option (List Char × List Char)
  | [] => none
  | x :: xs =>
    if x == c then some ([], xs)
    else match splitFirst c xs with
      | some (a, b) => some (x :: a, b)
      | none => none

/-- The characters before the first occurrence of `c`
(element 0 of Python `s.split(c)`, and the closing delimiter of element 1). -/
def takeUntil (c : Char) (l : List Char) : List Char :=
  l.takeWhile (fun x => x != c)

/-- The characters after the first occurrence of `c`, or `none` when `c` is
absent (in which case indexing element 1 of Python `s.split(c)` raises). -/
def afterFirst (c : Char) (l : List Char) : Option (List Char) :=
  (splitFirst c l).map (fun ab => ab.2)

/-- Base64 alphabet membership, padding included.  `b64decode` with its
default `validate=False` discards all other characters before decoding. -/
def isB64Char (c : Char) : Bool :=
  c.isAlpha || c.isDigit || c == '+' || c == '/' || c == '='

/-- Acceptance condition of `base64.b64decode(s)`: after discarding
non-alphabet characters the length must be a multiple of four, otherwise
the call raises (caught by the source's `except` clause). -/
def b64decodable (s : String) : Bool :=
  (s.toList.filter isB64Char).length % 4 == 0

/-- Audience of an emitted event: `sio.emit(...)`, `skip_sid=sid`, `to=sid`. -/
inductive Aud where
  | all
  | allExcept (sid : String)
  | only (sid : String)
deriving DecidableEq

/-- Observable actions of a handler, in execution order: persistence writes
and Socket.IO emissions. -/
inductive Act where
  | saveTokens (tokens : List Token)
  | saveMap (v : JVal)
  | emit (ev : String) (payload : JVal) (aud : Aud)
deriving DecidableEq

/-- Shared state plus the persisted artifacts the handlers touch.
`tokens` and `map` are the two fields of `shared_state`; `tokensFile` and
`mapFile` are the parsed contents of saved_tokens.json and saved_map.json
(`none` = file absent); `imagesDir` is the list of file names in the map
images directory. -/
structure World where
  tokens : List Token
  map : JVal
  tokensFile : Option JVal
  mapFile : Option JVal
  imagesDir : List String
deriving DecidableEq

/-- The document `save_tokens` serializes: a dict with the single key
`tokens` holding the token list. -/
def tokensDoc (ts : List Token) : JVal :=
  .obj [("tokens", .arr (ts.map .obj))]

/-- The document `save_map` serializes: a dict with the single key `map`. -/
def mapDoc (v : JVal) : JVal :=
  .obj [("map", v)]

/-- The `save_tokens` function: overwrite saved_tokens.json with the current
token list and report the write. -/
def save_tokens (w : World) : World × List Act :=
  ({ w with tokensFile := some (tokensDoc w.tokens) }, [.saveTokens w.tokens])

/-- The `find_token` helper: first token whose `id` compares `==` to the
requested identifier. -/
def find_token (tokens : List Token) (token_id : JVal) : Option Token :=
  tokens.find? (fun t => pyEq (dget t "id") token_id)

/-- The `extract_and_save_map_image` function on the map-images directory:
reject a non-inline-image argument; split the data URL at its first comma
(raising, hence `none`, when there is none); derive the file extension from
the declared MIME subtype; delete every resident `current_map.*` file; then
decode and write, or fail with the old files already gone. -/
def extract_and_save_map_image (map_data_url : String) (dir : List String) :
    Option String × List String :=
  if !(strStartsWith map_data_url "data:image/") then (none, dir)
  else match splitFirst ',' map_data_url.toList with
    | none => (none, dir)
    | some (headerCs, encodedCs) =>
      match afterFirst ':' (takeUntil ';' headerCs) with
      | none => (none, dir)
      | some afterColon =>
        let mime_type := takeUntil ':' afterColon
        match afterFirst '/' mime_type with
        | none => (none, dir)
        | some afterSlash =>
          let extension := takeUntil '/' afterSlash
          let new_map_filename := "current_map." ++ String.mk extension
          let dir1 := dir.filter (fun f => !(strStartsWith f "current_map."))
          if b64decodable (String.mk encodedCs) then
            (some ("/maps/" ++ new_map_filename), dir1 ++ [new_map_filename])
          else (none, dir1)

/-- The `save_map` function: refuse falsy map data; extract-and-store an
inline image first when given one; otherwise overwrite saved_map.json with
the given reference.  A truthy non-string raises inside the `try`, which the
function's own `except` turns into `False`. -/
def save_map (map_data : JVal) (w : World) : Bool × World × List Act :=
  if !(truthy map_data) then (false, w, [])
  else match map_data with
    | .str s =>
      if strStartsWith s "data:image/" then
        match extract_and_save_map_image s w.imagesDir with
        | (some url, dir1) =>
          (true,
           { w with imagesDir := dir1, mapFile := some (mapDoc (.str url)) },
           [.saveMap (.str url)])
        | (none, dir1) => (false, { w with imagesDir := dir1 }, [])
      else
        (true, { w with mapFile := some (mapDoc (.str s)) }, [.saveMap (.str s)])
    | _ => (false, w, [])

/-- How a persisted JSON file presents itself to a loader. -/
inductive FileRead where
  | absent
  | unreadable
  | badJson
  | ok (doc : JVal)

/-- View an in-model file as a read result (files the model writes are
always well-formed JSON). -/
def fileRead : Option JVal → FileRead
  | some doc => .ok doc
  | none => .absent

/-- The `load_saved_map` function: `none` for an absent, unreadable or
undecodable file; for a parsed document, the `map` entry when it is truthy,
else `none`.  (`.get` on a non-dict document raises, which the `except`
clause also turns into `none`.) -/
def load_saved_map : FileRead → Option JVal
  | .ok (.obj fields) =>
    match tget fields "map" with
    | some v => if truthy v then some v else none
    | none => none
  | .ok _ => none
  | .absent => none
  | .unreadable => none
  | .badJson => none

/-- A token entry of a persisted token document.  Documents written by
`save_tokens` only ever hold dicts here; other JSON values would be passed
through verbatim by the Python loader and are outside this model. -/
def asTokenObj : JVal → Token
  | .obj t => t
  | _ => []

/-- The `load_saved_tokens` function: the `tokens` entry of the parsed
document, defaulting to the empty list for an absent entry, an absent,
unreadable or undecodable file, or a non-dict document. -/
def load_saved_tokens : FileRead → List Token
  | .ok (.obj fields) =>
    match tget fields "tokens" with
    | some (.arr elems) => elems.map asTokenObj
    | some _ => []
    | none => []
  | .ok _ => []
  | .absent => []
  | .unreadable => []
  | .badJson => []

/-- The synthesized identifier of the `request_initial_state` back-fill:
the Python f-string interpolates `len(shared_state['tokens'])` (passed here
as `n`) and `hash(str(token))`. -/
def synthId (n : Nat) (t : Token) : String :=
  "server-token-" ++ toString n ++ "-" ++ toString (contentHash t)

/-- The back-fill loop of `request_initial_state`: every token with a falsy
`id` is assigned a synthesized identifier; the interpolated length is the
total length of the token list, unchanged across the loop. -/
def backfillIds (ts : List Token) : List Token :=
  ts.map (fun t =>
    if truthy (dget t "id") then t
    else dset t "id" (.str (synthId ts.length t)))

/-- The `request_initial_state` handler: back-fill missing token ids in
shared state, suffix a truthy map reference with a cache-busting timestamp,
and reply with the full state to the requesting session only. -/
def request_initial_state (sid : String) (now : Nat) (w : World) :
    World × List Act :=
  let tokens1 := backfillIds w.tokens
  let map_url_for_client : JVal :=
    if truthy w.map then .str (pyStr w.map ++ "?t=" ++ toString now) else w.map
  let state_to_send : JVal :=
    .obj [("tokens", .arr (tokens1.map .obj)), ("map", map_url_for_client)]
  ({ w with tokens := tokens1 },
   [.emit "initial_state" state_to_send (.only sid)])

/-- Python truthiness of the `find_token` result as tested by `if token:`
(line 401): `None` is falsy, and so is an empty dict. -/
def foundTruthy : Option Token → Bool
  | none => false
  | some t => !t.isEmpty

/-- The `move_token` handler.  The source tests `if token:` — truthiness of
the dict `find_token` returned — so the update branch runs only when a token
was found and is a non-empty dict: then the token's coordinates are updated
in place, `token_moved` is broadcast to everyone but the sender, and the
list is saved.  Otherwise (auto-recovery, also reached when the first match
is an empty, falsy dict): append a token synthesized from the payload's
known fields with defaults, broadcast `token_added` to everyone, broadcast
`token_moved` to everyone but the sender, then save. -/
def move_token (sid : String) (data : Token) (w : World) : World × List Act :=
  let token_id := dget data "id"
  if foundTruthy (find_token w.tokens token_id) then
    let tokens1 := updateFirst (fun t => pyEq (dget t "id") token_id)
      (fun t => dset (dset t "x" (dget data "x")) "y" (dget data "y")) w.tokens
    let r := save_tokens { w with tokens := tokens1 }
    (r.1, [.emit "token_moved" (.obj data) (.allExcept sid)] ++ r.2)
  else
    let new_token : Token :=
      [("id", token_id), ("x", dget data "x"), ("y", dget data "y"),
       ("size", dgetD data "size" (.int 50)),
       ("color", dgetD data "color" (.str "blue")),
       ("name", dgetD data "name" (.str "Token")),
       ("portraitUrl", dget data "portraitUrl")]
    let r := save_tokens { w with tokens := w.tokens ++ [new_token] }
    (r.1, [.emit "token_added" (.obj new_token) .all,
           .emit "token_moved" (.obj data) (.allExcept sid)] ++ r.2)

/-- The `add_token` handler.  An empty payload or a falsy `id` is rejected
with no state change and no broadcast.  A known identifier: merge every
payload field into the existing token and broadcast `token_updated` to all
but the sender, with no save.  A new identifier: append the payload as a
token, broadcast `token_added` to all but the sender, then save. -/
def add_token (sid : String) (data : Token) (w : World) : World × List Act :=
  if data.isEmpty || !(truthy (dget data "id")) then (w, [])
  else
    let token_id := dget data "id"
    match find_token w.tokens token_id with
    | some _ =>
      let tokens1 := updateFirst (fun t => pyEq (dget t "id") token_id)
        (mergeInto data) w.tokens
      ({ w with tokens := tokens1 },
       [.emit "token_updated" (.obj data) (.allExcept sid)])
    | none =>
      let r := save_tokens { w with tokens := w.tokens ++ [data] }
      (r.1, [.emit "token_added" (.obj data) (.allExcept sid)] ++ r.2)

/-- The `remove_token` handler: drop every token whose `id` compares equal
to the payload's; when the list shrank, broadcast `token_removed` to all but
the sender and save, else do nothing observable. -/
def remove_token (sid : String) (data : Token) (w : World) : World × List Act :=
  let token_id := dget data "id"
  let tokens1 := w.tokens.filter (fun t => !(pyEq (dget t "id") token_id))
  if tokens1.length < w.tokens.length then
    let r := save_tokens { w with tokens := tokens1 }
    (r.1, [.emit "token_removed" (.obj data) (.allExcept sid)] ++ r.2)
  else ({ w with tokens := tokens1 }, [])

/-- The non-inline tail of `change_map` (lines after the data-URL branch):
store the payload's map value verbatim, attempt `save_map`, then broadcast
`map_changed` to every session with the cache-busted interpolation of the
stored value. -/
def change_map_direct (now : Nat) (map_data : JVal) (w : World) :
    World × List Act :=
  let r := save_map map_data { w with map := map_data }
  let map_url_for_client := pyStr map_data ++ "?t=" ++ toString now
  (r.2.1, r.2.2 ++ [.emit "map_changed" (.obj [("map", .str map_url_for_client)]) .all])

/-- The `change_map` handler.  A truthy string beginning with the inline
image prefix is extracted and stored: on success the relative path is kept,
saved, and an absolutized cache-busted URL is broadcast to every session; on
failure nothing further happens (the stale image files are already gone).
A truthy non-string raises at `.startswith` and the handler aborts.  Any
other value (including a missing `map`) falls through to the verbatim
branch. -/
def change_map (sid : String) (now : Nat) (data : Token) (w : World) :
    World × List Act :=
  let map_data := dget data "map"
  match map_data with
  | .str s =>
    if (!s.isEmpty) && strStartsWith s "data:image/" then
      match extract_and_save_map_image s w.imagesDir with
      | (some extracted_url, dir1) =>
        let r :=
          save_map (.str extracted_url)
            { w with imagesDir := dir1, map := .str extracted_url }
        let full_url :=
          "http://" ++ server_ip ++ ":9000" ++ extracted_url ++ "?t=" ++
            toString now
        (r.2.1, r.2.2 ++ [.emit "map_changed" (.obj [("map", .str full_url)]) .all])
      | (none, dir1) => ({ w with imagesDir := dir1 }, [])
    else change_map_direct now (.str s) w
  | other =>
    if truthy other then (w, [])
    else change_map_direct now other w

/-- The `clear_all_tokens` handler: empty the token list, save, then
broadcast `all_tokens_cleared` to all but the sender. -/
def clear_all_tokens (sid : String) (w : World) : World × List Act :=
  let r := save_tokens { w with tokens := [] }
  (r.1, r.2 ++ [.emit "all_tokens_cleared" (.obj []) (.allExcept sid)])

/-- Identifier view of a token used to state id-uniqueness: the stored id
value, if any, normalized for Python equality. -/
def idK (t : Token) : Option JVal := (tget t "id").map pyKey

/-- Compatibility of a present identifier with another identifier slot:
absent ids never clash, present ones must differ. -/
def okAgainst (v : JVal) : Option JVal → Bool
  | none => true
  | some w => !(v == w)

/-- No two present entries of the list are equal. -/
def uniqOpt : List (Option JVal) → Bool
  | [] => true
  | none :: rest => uniqOpt rest
  | some v :: rest => rest.all (okAgainst v) && uniqOpt rest

/-- Identifier uniqueness of a token list: no two tokens carrying an id
carry Python-equal ids (tokens without an id do not take part). -/
def uniqIdsB (ts : List Token) : Bool := uniqOpt (ts.map idK)

/-- Whether an action is a persistence write. -/
def isSave : Act → Bool
  | .saveTokens _ => true
  | .saveMap _ => true
  | .emit _ _ _ => false

/-- Whether an action is an emission. -/
def isEmit : Act → Bool
  | .emit _ _ _ => true
  | .saveTokens _ => false
  | .saveMap _ => false

/-- Every persistence write in the trace happens before every emission. -/
def savesThenEmits : List Act → Bool
  | [] => true
  | a :: rest => if isEmit a then rest.all isEmit else savesThenEmits rest

/-- Every emission in the trace happens before every persistence write. -/
def emitsThenSaves : List Act → Bool
  | [] => true
  | a :: rest => if isSave a then rest.all isSave else emitsThenSaves rest

/-- Modelled from the spec: `request_initial_state` "back-fills any token
missing an `id` with a synthesized identifier derived from position-in-list
and a hash of its content".  This follows the spec's words by interpolating
the token's position in the list; the source interpolates the list length
instead. -/
def backfillIdsSpec (ts : List Token) : List Token :=
  ts.enum.map (fun it =>
    if truthy (dget it.2 "id") then it.2
    else dset it.2 "id" (.str (synthId it.1 it.2)))

/-- The token `move_token`'s auto-recovery branch synthesizes from a payload
whose `id` is absent (`data.get('id')` yields `None`). -/
def nullRecoveryToken (data : Token) : Token :=
  [("id", .null), ("x", dget data "x"), ("y", dget data "y"),
   ("size", dgetD data "size" (.int 50)),
   ("color", dgetD data "color" (.str "blue")),
   ("name", dgetD data "name" (.str "Token")),
   ("portraitUrl", dget data "portraitUrl")]

theorem tget_cons (k1 : String) (v1 : JVal) (rest : Token) (k : String) :
    tget ((k1, v1) :: rest) k = if k1 == k then some v1 else tget rest k := by
  by_cases h : k1 = k
  · subst h
    simp [tget]
  · have hb : (k1 == k) = false := by simpa using h
    simp [tget, hb]

theorem tget_dset_self (t : Token) (k : String) (v : JVal) :
    tget (dset t k v) k = some v := by
  induction t with
  | nil => simp [dset, tget]
  | cons kv rest ih =>
    obtain ⟨k1, v1⟩ := kv
    by_cases h : k1 = k
    · subst h
      simp [dset, tget]
    · have hb : (k1 == k) = false := by simpa using h
      simp [dset, hb, tget_cons, ih]

theorem tget_dset_other (t : Token) {k k' : String} (v : JVal) (h : k' ≠ k) :
    tget (dset t k v) k' = tget t k' := by
  induction t with
  | nil =>
    have hb : (k == k') = false := by simpa using (Ne.symm h)
    simp [dset, tget, hb]
  | cons kv rest ih =>
    obtain ⟨k1, v1⟩ := kv
    by_cases h1 : k1 = k
    · subst h1
      have hb : (k1 == k1) = true := by simp
      have hb2 : (k1 == k') = false := by simpa using fun hh => h hh.symm
      simp [dset, tget_cons, hb2]
    · have hb : (k1 == k) = false := by simpa using h1
      simp [dset, hb, tget_cons, ih]

theorem truthy_tget {t : Token} {k : String} (h : truthy (dget t k) = true) :
    tget t k = some (dget t k) := by
  unfold dget
  cases hg : tget t k with
  | none =>
    unfold dget at h
    rw [hg] at h
    simp [truthy] at h
  | some v => simp

theorem dget_of_tget {t : Token} {k : String} {v : JVal} (h : tget t k = some v) :
    dget t k = v := by
  simp [dget, h]

theorem tget_mem {t : Token} {k : String} {v : JVal} (h : tget t k = some v) :
    (k, v) ∈ t := by
  unfold tget at h
  cases hf : t.find? (fun kv => kv.1 == k) with
  | none => rw [hf] at h; simp at h
  | some kv =>
    rw [hf] at h
    simp at h
    have hmem := List.mem_of_find?_eq_some hf
    have hkey := List.find?_some hf
    simp at hkey
    obtain ⟨k0, v0⟩ := kv
    simp at hkey h
    subst hkey
    subst h
    exact hmem

theorem truthy_pyKey_ne_null {v : JVal} (h : truthy v = true) :
    pyKey v ≠ JVal.null := by
  cases v <;> simp [truthy, pyKey] at *

theorem pyEq_true_iff {a b : JVal} : pyEq a b = true ↔ pyKey a = pyKey b := by
  unfold pyEq
  exact beq_iff_eq

theorem idK_dset_xy (t : Token) (vx vy : JVal) :
    idK (dset (dset t "x" vx) "y" vy) = idK t := by
  unfold idK
  rw [tget_dset_other _ _ (by decide), tget_dset_other _ _ (by decide)]

theorem map_idK_updateFirst (p : Token → Bool) (f : Token → Token)
    (h : ∀ t, p t = true → idK (f t) = idK t) (ts : List Token) :
    (updateFirst p f ts).map idK = ts.map idK := by
  induction ts with
  | nil => rfl
  | cons t rest ih =>
    cases hp : p t with
    | true => simp [updateFirst, hp, h t hp]
    | false => simp [updateFirst, hp, ih]

theorem all_of_sublist {l l' : List (Option JVal)} {g : Option JVal → Bool}
    (h : List.Sublist l' l) (ha : l.all g = true) : l'.all g = true := by
  rw [List.all_eq_true] at *
  exact fun x hx => ha x (h.subset hx)

theorem uniqOpt_sublist {l l' : List (Option JVal)} (h : List.Sublist l' l)
    (hu : uniqOpt l = true) : uniqOpt l' = true := by
  induction h with
  | slnil => rfl
  | cons a h ih =>
    apply ih
    cases a with
    | none => simpa [uniqOpt] using hu
    | some v =>
      simp only [uniqOpt, Bool.and_eq_true] at hu
      exact hu.2
  | cons₂ a h ih =>
    cases a with
    | none =>
      simp only [uniqOpt] at hu ⊢
      exact ih hu
    | some v =>
      simp only [uniqOpt, Bool.and_eq_true] at hu ⊢
      exact ⟨all_of_sublist h hu.1, ih hu.2⟩

theorem uniqOpt_append_new {l : List (Option JVal)} {kv : JVal}
    (hu : uniqOpt l = true)
    (h2 : ∀ v, some v ∈ l → (v == kv) = false) :
    uniqOpt (l ++ [some kv]) = true := by
  induction l with
  | nil => simp [uniqOpt, okAgainst]
  | cons a rest ih =>
    cases a with
    | none =>
      simp only [uniqOpt, List.cons_append] at hu ⊢
      exact ih hu (fun v hv => h2 v (by simp [hv]))
    | some v =>
      simp only [uniqOpt, Bool.and_eq_true, List.cons_append] at hu ⊢
      refine ⟨?_, ih hu.2 (fun v' hv' => h2 v' (by simp [hv']))⟩
      rw [List.all_eq_true]
      intro x hx
      simp only [List.append_eq, List.mem_append, List.mem_singleton] at hx
      rcases hx with hx | hx
      · exact List.all_eq_true.mp hu.1 x hx
      · subst hx
        simp [okAgainst, h2 v (by simp)]

theorem find_token_none {ts : List Token} {tid : JVal}
    (h : find_token ts tid = none) :
    ∀ t ∈ ts, pyEq (dget t "id") tid = false := by
  unfold find_token at h
  rw [List.find?_eq_none] at h
  intro t ht
  simpa using h t ht

theorem no_match_mapIdK {ts : List Token} {tid : JVal}
    (h : ∀ t ∈ ts, pyEq (dget t "id") tid = false) :
    ∀ v, some v ∈ ts.map idK → (v == pyKey tid) = false := by
  intro v hv
  rw [List.mem_map] at hv
  obtain ⟨t, ht, hidk⟩ := hv
  unfold idK at hidk
  cases hg : tget t "id" with
  | none => rw [hg] at hidk; simp at hidk
  | some w =>
    rw [hg] at hidk
    simp at hidk
    subst hidk
    have hp := h t ht
    rw [dget_of_tget hg] at hp
    exact hp

theorem mergeInto_nil (t : Token) : mergeInto [] t = t := rfl

theorem mergeInto_cons (k : String) (v : JVal) (rest : Token) (t : Token) :
    mergeInto ((k, v) :: rest) t = mergeInto rest (dset t k v) := rfl

theorem tget_mergeInto_not_mem {data : Token} {k : String}
    (h : ∀ v, (k, v) ∉ data) :
    ∀ t, tget (mergeInto data t) k = tget t k := by
  induction data with
  | nil => intro t; rfl
  | cons kv rest ih =>
    intro t
    obtain ⟨k1, v1⟩ := kv
    rw [mergeInto_cons]
    have hk : k ≠ k1 := by
      intro he
      subst he
      exact h v1 (List.mem_cons_self _ _)
    rw [ih (fun v hv => h v (List.mem_cons_of_mem _ hv))]
    exact tget_dset_other t v1 hk

theorem tget_mergeInto_mem {data : Token}
    (hnd : (data.map Prod.fst).Nodup) {k : String} {v : JVal}
    (hmem : (k, v) ∈ data) :
    ∀ t, tget (mergeInto data t) k = some v := by
  induction data with
  | nil => cases hmem
  | cons kv rest ih =>
    intro t
    obtain ⟨k1, v1⟩ := kv
    rw [List.map_cons, List.nodup_cons] at hnd
    obtain ⟨hk1, hnd'⟩ := hnd
    rw [mergeInto_cons]
    rcases List.mem_cons.mp hmem with he | hr
    · obtain ⟨hek, hev⟩ := Prod.mk.inj he
      subst hek
      subst hev
      have hnot : ∀ v', (k, v') ∉ rest := by
        intro v' hv'
        exact hk1 (List.mem_map.mpr ⟨(k, v'), hv', rfl⟩)
      rw [tget_mergeInto_not_mem hnot]
      exact tget_dset_self t k v
    · exact ih hnd' hr (dset t k1 v1)

theorem updateFirst_mem {p : Token → Bool} {f : Token → Token}
    {ts : List Token} {t0 : Token} (h : ts.find? p = some t0) :
    f t0 ∈ updateFirst p f ts := by
  induction ts with
  | nil => simp at h
  | cons t rest ih =>
    cases hp : p t with
    | true =>
      rw [List.find?_cons_of_pos _ hp] at h
      have : t = t0 := by injection h
      subst this
      simp [updateFirst, hp]
    | false =>
      rw [List.find?_cons_of_neg _ (by simp [hp])] at h
      simp only [updateFirst, hp, if_false]
      exact List.mem_cons_of_mem _ (ih h)

theorem save_map_acts (v : JVal) (w : World) :
    (save_map v w).2.2 = [] ∨ ∃ u, (save_map v w).2.2 = [Act.saveMap u] := by
  unfold save_map
  repeat' split
  all_goals first
  | exact Or.inl rfl
  | exact Or.inr ⟨_, rfl⟩

theorem savesThenEmits_sa_emit {sa : List Act}
    (h : sa = [] ∨ ∃ u, sa = [Act.saveMap u]) (e : String) (p : JVal) (a : Aud) :
    savesThenEmits (sa ++ [Act.emit e p a]) = true := by
  rcases h with h | ⟨u, h⟩ <;> subst h <;> simp [savesThenEmits, isEmit, isSave]

theorem change_map_direct_trace (now : Nat) (v : JVal) (w : World) :
    savesThenEmits ((change_map_direct now v w).2) = true := by
  unfold change_map_direct
  dsimp only
  exact savesThenEmits_sa_emit (save_map_acts v { w with map := v }) _ _ _

theorem change_map_trace (sid : String) (now : Nat) (data : Token) (w : World) :
    savesThenEmits ((change_map sid now data w).2) = true := by
  unfold change_map
  dsimp only
  repeat' split
  all_goals first
  | rfl
  | exact savesThenEmits_sa_emit (save_map_acts _ _) _ _ _

theorem clear_all_tokens_trace (sid : String) (w : World) :
    savesThenEmits ((clear_all_tokens sid w).2) = true := by
  simp [clear_all_tokens, save_tokens, savesThenEmits, isEmit, isSave]

theorem move_token_trace (sid : String) (data : Token) (w : World) :
    emitsThenSaves ((move_token sid data w).2) = true := by
  unfold move_token
  dsimp only
  repeat' split
  all_goals simp [save_tokens, emitsThenSaves, isSave, isEmit]

theorem add_token_trace (sid : String) (data : Token) (w : World) :
    emitsThenSaves ((add_token sid data w).2) = true := by
  unfold add_token
  dsimp only
  repeat' split
  all_goals simp [save_tokens, emitsThenSaves, isSave, isEmit]

theorem remove_token_trace (sid : String) (data : Token) (w : World) :
    emitsThenSaves ((remove_token sid data w).2) = true := by
  unfold remove_token
  dsimp only
  repeat' split
  all_goals simp [save_tokens, emitsThenSaves, isSave, isEmit]

/-- Claim C1, as stated, is false: `move_token` for a known token emits the
`token_moved` broadcast before calling `save_tokens`, so at this concrete
input the persistence write does not precede the broadcast. -/
theorem C1_counterexample :
    savesThenEmits ((move_token "s1"
      [("id", .str "a"), ("x", .int 5), ("y", .int 6)]
      ⟨[[("id", .str "a"), ("x", .int 0), ("y", .int 0)]],
       .null, none, none, []⟩).2) = false := by decide

/-- Claim C1 (amended): `change_map` and `clear_all_tokens` perform their
persistence write before the broadcast, but `move_token`, `add_token` and
`remove_token` broadcast first and persist afterwards (with `add_token`'s
merge branch persisting nothing at all). -/
theorem C1_amended :
    (∀ sid now data w, savesThenEmits ((change_map sid now data w).2) = true) ∧
    (∀ sid w, savesThenEmits ((clear_all_tokens sid w).2) = true) ∧
    (∀ sid data w, emitsThenSaves ((move_token sid data w).2) = true) ∧
    (∀ sid data w, emitsThenSaves ((add_token sid data w).2) = true) ∧
    (∀ sid data w, emitsThenSaves ((remove_token sid data w).2) = true) :=
  ⟨change_map_trace, clear_all_tokens_trace, move_token_trace,
   add_token_trace, remove_token_trace⟩

theorem move_token_sync (sid : String) (data : Token) (w : World) :
    ((move_token sid data w).1).tokensFile =
      some (tokensDoc ((move_token sid data w).1).tokens) := by
  unfold move_token
  dsimp only [save_tokens]
  split <;> rfl

theorem add_token_append_sync (sid : String) (data : Token) (w : World)
    (hid : truthy (dget data "id") = true)
    (hf : find_token w.tokens (dget data "id") = none) :
    ((add_token sid data w).1).tokensFile =
      some (tokensDoc ((add_token sid data w).1).tokens) := by
  have hne : data.isEmpty = false := by
    cases data with
    | nil => simp [dget, tget, truthy] at hid
    | cons a l => rfl
  unfold add_token
  dsimp only [save_tokens]
  rw [if_neg (by rw [hne, hid]; simp)]
  rw [hf]

theorem remove_token_sync (sid : String) (data : Token) (w : World)
    (h : (w.tokens.filter
        (fun t => !(pyEq (dget t "id") (dget data "id")))).length <
      w.tokens.length) :
    ((remove_token sid data w).1).tokensFile =
      some (tokensDoc ((remove_token sid data w).1).tokens) := by
  unfold remove_token
  dsimp only [save_tokens]
  rw [if_pos h]

/-- Claim C2, as stated, is false: `add_token` on an existing identifier
merges the payload into the live token but performs no `save_tokens`, so at
this concrete input the persisted snapshot no longer equals the in-memory
token list after the handler. -/
theorem C2_counterexample :
    ((add_token "s1" [("id", .str "a"), ("x", .int 2)]
        ⟨[[("id", .str "a"), ("x", .int 1)]], .null,
         some (tokensDoc [[("id", .str "a"), ("x", .int 1)]]), none, []⟩).1).tokensFile ≠
      some (tokensDoc ((add_token "s1" [("id", .str "a"), ("x", .int 2)]
        ⟨[[("id", .str "a"), ("x", .int 1)]], .null,
         some (tokensDoc [[("id", .str "a"), ("x", .int 1)]]), none, []⟩).1).tokens) := by
  decide

/-- Claim C2 (amended): the token set is empty and freshly persisted right
after `clear_all_tokens`; the persisted snapshot equals the in-memory token
list after `move_token` (both branches), after `add_token`'s append branch,
and after a `remove_token` that actually removed something — but not after
`add_token`'s merge branch, which performs no save. -/
theorem C2_amended :
    (∀ sid w, ((clear_all_tokens sid w).1).tokens = [] ∧
       ((clear_all_tokens sid w).1).tokensFile = some (tokensDoc [])) ∧
    (∀ sid data w, ((move_token sid data w).1).tokensFile =
       some (tokensDoc ((move_token sid data w).1).tokens)) ∧
    (∀ sid data w, truthy (dget data "id") = true →
       find_token w.tokens (dget data "id") = none →
       ((add_token sid data w).1).tokensFile =
         some (tokensDoc ((add_token sid data w).1).tokens)) ∧
    (∀ sid data w,
       (w.tokens.filter
           (fun t => !(pyEq (dget t "id") (dget data "id")))).length <
         w.tokens.length →
       ((remove_token sid data w).1).tokensFile =
         some (tokensDoc ((remove_token sid data w).1).tokens)) :=
  ⟨fun _ _ => ⟨rfl, rfl⟩, move_token_sync, add_token_append_sync,
   remove_token_sync⟩

/-- Claim C2 witness: the amended synchronization property applied to a
concrete append and a concrete removal. -/
theorem C2_witness :
    truthy (dget [("id", JVal.str "b")] "id") = true ∧
    ((add_token "s1" [("id", .str "b")] ⟨[], .null, none, none, []⟩).1).tokensFile =
      some (tokensDoc ((add_token "s1" [("id", .str "b")]
        ⟨[], .null, none, none, []⟩).1).tokens) :=
  ⟨by decide, C2_amended.2.2.1 "s1" [("id", .str "b")] ⟨[], .null, none, none, []⟩
    (by decide) (by decide)⟩

theorem move_token_uniq (sid : String) (data : Token) (w : World)
    (hu : uniqIdsB w.tokens = true)
    (hid : truthy (dget data "id") = true) :
    uniqIdsB ((move_token sid data w).1).tokens = true := by
  unfold move_token
  dsimp only [save_tokens]
  cases hf : find_token w.tokens (dget data "id") with
  | some t0 =>
    have hf' : w.tokens.find?
        (fun t => pyEq (dget t "id") (dget data "id")) = some t0 := hf
    have hp : pyEq (dget t0 "id") (dget data "id") = true := by
      simpa using List.find?_some hf'
    have ht0 : t0.isEmpty = false := by
      cases t0 with
      | nil =>
        exfalso
        have h1 := pyEq_true_iff.mp hp
        have h2 : JVal.null = pyKey (dget data "id") := by
          simpa [dget, tget, pyKey] using h1
        exact truthy_pyKey_ne_null hid h2.symm
      | cons a l => rfl
    rw [if_pos (show foundTruthy (some t0) = true by
      simp [foundTruthy, ht0])]
    unfold uniqIdsB
    rw [map_idK_updateFirst _ _ (fun t _ => idK_dset_xy t _ _) w.tokens]
    exact hu
  | none =>
    rw [if_neg (show ¬ foundTruthy none = true by simp [foundTruthy])]
    unfold uniqIdsB
    rw [List.map_append]
    simp only [List.map_cons, List.map_nil]
    have hidk : idK [("id", dget data "id"), ("x", dget data "x"),
        ("y", dget data "y"), ("size", dgetD data "size" (.int 50)),
        ("color", dgetD data "color" (.str "blue")),
        ("name", dgetD data "name" (.str "Token")),
        ("portraitUrl", dget data "portraitUrl")] =
        some (pyKey (dget data "id")) := by
      unfold idK
      rw [tget_cons]
      simp
    rw [hidk]
    exact uniqOpt_append_new hu (no_match_mapIdK (find_token_none hf))

theorem add_token_uniq (sid : String) (data : Token) (w : World)
    (hu : uniqIdsB w.tokens = true) (hnd : (data.map Prod.fst).Nodup) :
    uniqIdsB ((add_token sid data w).1).tokens = true := by
  unfold add_token
  dsimp only [save_tokens]
  by_cases hg : (data.isEmpty || !(truthy (dget data "id"))) = true
  · rw [if_pos hg]
    exact hu
  · rw [if_neg hg]
    have htr : truthy (dget data "id") = true := by
      cases hb : truthy (dget data "id") with
      | true => rfl
      | false => exact absurd (by rw [hb]; simp) hg
    have htg : tget data "id" = some (dget data "id") := truthy_tget htr
    cases hf : find_token w.tokens (dget data "id") with
    | some t0 =>
      unfold uniqIdsB
      rw [map_idK_updateFirst _ _ ?_ w.tokens]
      · exact hu
      · intro t hp
        have hpk : pyKey (dget t "id") = pyKey (dget data "id") :=
          pyEq_true_iff.mp hp
        have hid_new : tget (mergeInto data t) "id" = some (dget data "id") :=
          tget_mergeInto_mem hnd (tget_mem htg) t
        have htp : tget t "id" = some (dget t "id") := by
          cases hgt : tget t "id" with
          | none =>
            exfalso
            have hdn : dget t "id" = JVal.null := by simp [dget, hgt]
            rw [hdn] at hpk
            have hnull : JVal.null = pyKey (dget data "id") := by
              simpa [pyKey] using hpk
            exact truthy_pyKey_ne_null htr hnull.symm
          | some wv => simp [dget, hgt]
        unfold idK
        rw [hid_new, htp]
        simp [hpk]
    | none =>
      unfold uniqIdsB
      rw [List.map_append]
      simp only [List.map_cons, List.map_nil]
      have hidk : idK data = some (pyKey (dget data "id")) := by
        unfold idK
        rw [htg]
        rfl
      rw [hidk]
      exact uniqOpt_append_new hu (no_match_mapIdK (find_token_none hf))

theorem remove_token_tokens_eq (sid : String) (data : Token) (w : World) :
    ((remove_token sid data w).1).tokens =
      w.tokens.filter (fun t => !(pyEq (dget t "id") (dget data "id"))) := by
  unfold remove_token
  dsimp only [save_tokens]
  split <;> rfl

theorem remove_token_uniq (sid : String) (data : Token) (w : World)
    (hu : uniqIdsB w.tokens = true) :
    uniqIdsB ((remove_token sid data w).1).tokens = true := by
  rw [remove_token_tokens_eq]
  unfold uniqIdsB
  exact uniqOpt_sublist ((List.filter_sublist w.tokens).map idK) hu

/-- Claim C3, as stated, is false on two of its handlers.  Back-fill: from
two id-less tokens with identical content, `request_initial_state` assigns
both the same synthesized identifier (constant list length plus content
hash).  Auto-recovery: from the unique-id state holding an empty token and
a token with a null id, an id-less `move_token` payload finds the falsy
empty dict first, takes the recovery branch past it, and appends a second
token with a null id. -/
theorem C3_counterexample :
    (uniqIdsB [[], []] = true ∧
     uniqIdsB ((request_initial_state "s1" 0
       ⟨[[], []], .null, none, none, []⟩).1).tokens = false) ∧
    (uniqIdsB [[], [("id", JVal.null)]] = true ∧
     uniqIdsB ((move_token "s1" [("x", .int 1), ("y", .int 2)]
       ⟨[[], [("id", JVal.null)]], .null, none, none, []⟩).1).tokens =
       false) := by
  decide

/-- Claim C3 (amended): `add_token` (for a dict payload, i.e. one without
duplicate keys), `remove_token` and `clear_all_tokens` preserve uniqueness
of the ids present in shared state unconditionally; `move_token` preserves
it whenever the payload carries a truthy id (with a falsy payload id the
auto-recovery can append a second null-id token past a falsy empty match);
the back-fill of `request_initial_state` does not preserve it in general. -/
theorem C3_amended :
    (∀ sid data w, uniqIdsB w.tokens = true →
       truthy (dget data "id") = true →
       uniqIdsB ((move_token sid data w).1).tokens = true) ∧
    (∀ sid data w, uniqIdsB w.tokens = true → (data.map Prod.fst).Nodup →
       uniqIdsB ((add_token sid data w).1).tokens = true) ∧
    (∀ sid data w, uniqIdsB w.tokens = true →
       uniqIdsB ((remove_token sid data w).1).tokens = true) ∧
    (∀ sid w, uniqIdsB ((clear_all_tokens sid w).1).tokens = true) :=
  ⟨move_token_uniq, add_token_uniq, remove_token_uniq, fun _ _ => rfl⟩

/-- Claim C3 witness: uniqueness preservation applied to a concrete
`add_token` append on a one-token state. -/
theorem C3_witness :
    uniqIdsB [[("id", JVal.str "a")]] = true ∧
    uniqIdsB ((add_token "s1" [("id", .str "b"), ("x", .int 3)]
      ⟨[[("id", .str "a")]], .null, none, none, []⟩).1).tokens = true :=
  ⟨by decide, C3_amended.2.1 "s1" [("id", .str "b"), ("x", .int 3)]
    ⟨[[("id", .str "a")]], .null, none, none, []⟩ (by decide) (by decide)⟩

theorem add_token_missing_id (sid : String) (data : Token) (w : World)
    (h : tget data "id" = none) :
    add_token sid data w = (w, []) := by
  unfold add_token
  have hd : dget data "id" = JVal.null := by simp [dget, h]
  rw [if_pos (by rw [hd]; simp [truthy])]

theorem move_token_missing_id (sid : String) (data : Token) (w : World)
    (h : tget data "id" = none)
    (hf : find_token w.tokens JVal.null = none) :
    move_token sid data w =
      ({ w with
          tokens := w.tokens ++ [nullRecoveryToken data],
          tokensFile := some (tokensDoc (w.tokens ++ [nullRecoveryToken data])) },
       [.emit "token_added" (.obj (nullRecoveryToken data)) .all,
        .emit "token_moved" (.obj data) (.allExcept sid),
        .saveTokens (w.tokens ++ [nullRecoveryToken data])]) := by
  unfold move_token
  have hd : dget data "id" = JVal.null := by simp [dget, h]
  rw [hd]
  dsimp only [save_tokens]
  rw [hf]
  rw [if_neg (show ¬ foundTruthy none = true by simp [foundTruthy])]
  rfl

theorem change_map_missing_map (sid : String) (now : Nat) (data : Token)
    (w : World) (h : tget data "map" = none) :
    change_map sid now data w =
      ({ w with map := .null },
       [.emit "map_changed"
          (.obj [("map", .str ("None?t=" ++ toString now))]) .all]) := by
  unfold change_map
  have hd : dget data "map" = JVal.null := by simp [dget, h]
  rw [hd]
  rfl

theorem remove_token_missing_noop (sid : String) (data : Token) (w : World)
    (h : tget data "id" = none)
    (hnone : ∀ t ∈ w.tokens, pyEq (dget t "id") JVal.null = false) :
    remove_token sid data w = (w, []) := by
  unfold remove_token
  dsimp only
  have hd : dget data "id" = JVal.null := by simp [dget, h]
  rw [hd]
  have hfil : w.tokens.filter (fun t => !(pyEq (dget t "id") JVal.null)) =
      w.tokens :=
    List.filter_eq_self.mpr (fun t ht => by simp [hnone t ht])
  rw [hfil, if_neg (lt_irrefl _)]

theorem move_token_missing_update (sid : String) (data : Token) (w : World)
    (t0 : Token) (h : tget data "id" = none)
    (hf : find_token w.tokens JVal.null = some t0)
    (hne : t0.isEmpty = false) :
    move_token sid data w =
      ({ w with
          tokens := updateFirst (fun t => pyEq (dget t "id") JVal.null)
            (fun t => dset (dset t "x" (dget data "x")) "y" (dget data "y"))
            w.tokens,
          tokensFile := some (tokensDoc (updateFirst
            (fun t => pyEq (dget t "id") JVal.null)
            (fun t => dset (dset t "x" (dget data "x")) "y" (dget data "y"))
            w.tokens)) },
       [.emit "token_moved" (.obj data) (.allExcept sid),
        .saveTokens (updateFirst (fun t => pyEq (dget t "id") JVal.null)
          (fun t => dset (dset t "x" (dget data "x")) "y" (dget data "y"))
          w.tokens)]) := by
  unfold move_token
  have hd : dget data "id" = JVal.null := by simp [dget, h]
  rw [hd]
  dsimp only [save_tokens]
  rw [hf]
  rw [if_pos (show foundTruthy (some t0) = true by simp [foundTruthy, hne])]
  rfl

/-- Claim C4, as stated, is false: a `move_token` payload without an `id`
is not rejected — at this concrete input the handler appends a synthesized
token with a null identifier to shared state and emits broadcasts. -/
theorem C4_counterexample :
    ((move_token "s1" [("x", .int 1), ("y", .int 2)]
      ⟨[], .null, none, none, []⟩).1).tokens.length = 1 ∧
    ((move_token "s1" [("x", .int 1), ("y", .int 2)]
      ⟨[], .null, none, none, []⟩).2) ≠ [] := by decide

/-- Claim C4 (amended): `add_token` rejects a payload whose `id` is
missing, with no state change and no broadcast.  `move_token` performs no
such validation: with a missing `id`, when no live token's id lookup yields
null it appends a token whose id is null and broadcasts `token_added` and
`token_moved`; when the first live token whose id lookup yields null is a
non-empty dict it instead updates that token's coordinates in place and
broadcasts `token_moved`.  `change_map` with a missing `map` sets the
shared map to null, performs no persistence write, and still broadcasts
`map_changed` with the interpolation "None?t=<now>".  `remove_token` with a
missing `id` is a silent no-op only when no live token's id lookup yields
null. -/
theorem C4_amended :
    (∀ sid data w, tget data "id" = none → add_token sid data w = (w, [])) ∧
    (∀ sid data w, tget data "id" = none →
       find_token w.tokens JVal.null = none →
       move_token sid data w =
         ({ w with
             tokens := w.tokens ++ [nullRecoveryToken data],
             tokensFile :=
               some (tokensDoc (w.tokens ++ [nullRecoveryToken data])) },
          [.emit "token_added" (.obj (nullRecoveryToken data)) .all,
           .emit "token_moved" (.obj data) (.allExcept sid),
           .saveTokens (w.tokens ++ [nullRecoveryToken data])])) ∧
    (∀ sid data w t0, tget data "id" = none →
       find_token w.tokens JVal.null = some t0 → t0.isEmpty = false →
       move_token sid data w =
         ({ w with
             tokens := updateFirst (fun t => pyEq (dget t "id") JVal.null)
               (fun t => dset (dset t "x" (dget data "x")) "y"
                 (dget data "y")) w.tokens,
             tokensFile := some (tokensDoc (updateFirst
               (fun t => pyEq (dget t "id") JVal.null)
               (fun t => dset (dset t "x" (dget data "x")) "y"
                 (dget data "y")) w.tokens)) },
          [.emit "token_moved" (.obj data) (.allExcept sid),
           .saveTokens (updateFirst (fun t => pyEq (dget t "id") JVal.null)
             (fun t => dset (dset t "x" (dget data "x")) "y"
               (dget data "y")) w.tokens)])) ∧
    (∀ sid now data w, tget data "map" = none →
       change_map sid now data w =
         ({ w with map := .null },
          [.emit "map_changed"
             (.obj [("map", .str ("None?t=" ++ toString now))]) .all])) ∧
    (∀ sid data w, tget data "id" = none →
       (∀ t ∈ w.tokens, pyEq (dget t "id") JVal.null = false) →
       remove_token sid data w = (w, [])) :=
  ⟨add_token_missing_id, move_token_missing_id,
   fun sid data w t0 h hf hne => move_token_missing_update sid data w t0 h hf hne,
   change_map_missing_map, remove_token_missing_noop⟩

/-- Claim C4 witness: the amended rejection property of `add_token` applied
to a concrete id-less payload. -/
theorem C4_witness :
    tget [("x", JVal.int 1)] "id" = none ∧
    add_token "s1" [("x", .int 1)] ⟨[], .null, none, none, []⟩ =
      (⟨[], .null, none, none, []⟩, []) :=
  ⟨by decide, C4_amended.1 "s1" [("x", .int 1)] ⟨[], .null, none, none, []⟩
    (by decide)⟩

theorem add_token_merge_fields (sid : String) (data : Token) (w : World)
    (t0 : Token) (hnd : (data.map Prod.fst).Nodup)
    (htr : truthy (dget data "id") = true)
    (hf : find_token w.tokens (dget data "id") = some t0) :
    ∃ t' ∈ ((add_token sid data w).1).tokens,
      ∀ k v, (k, v) ∈ data → tget t' k = some v := by
  have hne : data.isEmpty = false := by
    cases data with
    | nil => simp [dget, tget, truthy] at htr
    | cons a l => rfl
  unfold add_token
  dsimp only [save_tokens]
  rw [if_neg (by rw [hne, htr]; simp), hf]
  dsimp only
  refine ⟨mergeInto data t0, ?_, ?_⟩
  · exact updateFirst_mem hf
  · intro k v hkv
    exact tget_mergeInto_mem hnd hkv t0

theorem add_token_append_tokens (sid : String) (data : Token) (w : World)
    (htr : truthy (dget data "id") = true)
    (hf : find_token w.tokens (dget data "id") = none) :
    ((add_token sid data w).1).tokens = w.tokens ++ [data] := by
  have hne : data.isEmpty = false := by
    cases data with
    | nil => simp [dget, tget, truthy] at htr
    | cons a l => rfl
  unfold add_token
  dsimp only [save_tokens]
  rw [if_neg (by rw [hne, htr]; simp), hf]

theorem move_token_recover_tokens (sid : String) (data : Token) (w : World)
    (hf : find_token w.tokens (dget data "id") = none) :
    ((move_token sid data w).1).tokens =
      w.tokens ++ [[("id", dget data "id"), ("x", dget data "x"),
        ("y", dget data "y"), ("size", dgetD data "size" (.int 50)),
        ("color", dgetD data "color" (.str "blue")),
        ("name", dgetD data "name" (.str "Token")),
        ("portraitUrl", dget data "portraitUrl")]] := by
  unfold move_token
  dsimp only [save_tokens]
  rw [hf]
  rw [if_neg (show ¬ foundTruthy none = true by simp [foundTruthy])]

/-- Claim C5, as stated, is false: `move_token`'s auto-recovery synthesizes
the stored token from the known schema fields only, so at this concrete
input the free-form payload field "foo" is absent from the stored token. -/
theorem C5_counterexample :
    ("foo", JVal.str "bar") ∈
      ([("id", .str "a"), ("x", .int 1), ("y", .int 2),
        ("foo", .str "bar")] : Token) ∧
    (((move_token "s1" [("id", .str "a"), ("x", .int 1), ("y", .int 2),
        ("foo", .str "bar")] ⟨[], .null, none, none, []⟩).1).tokens.map
      (fun t => tget t "foo")) = [none] := by decide

/-- Claim C5 (amended): `add_token` preserves every payload field in both
branches — the merge writes every payload entry into the live token and the
append stores the payload verbatim — but `move_token`'s auto-recovery keeps
only the known schema fields (id, x, y, size, color, name, portraitUrl) and
drops any other payload field. -/
theorem C5_amended :
    (∀ sid data w t0, (data.map Prod.fst).Nodup →
       truthy (dget data "id") = true →
       find_token w.tokens (dget data "id") = some t0 →
       ∃ t' ∈ ((add_token sid data w).1).tokens,
         ∀ k v, (k, v) ∈ data → tget t' k = some v) ∧
    (∀ sid data w, truthy (dget data "id") = true →
       find_token w.tokens (dget data "id") = none →
       ((add_token sid data w).1).tokens = w.tokens ++ [data]) ∧
    (∀ sid data w, find_token w.tokens (dget data "id") = none →
       ((move_token sid data w).1).tokens =
         w.tokens ++ [[("id", dget data "id"), ("x", dget data "x"),
           ("y", dget data "y"), ("size", dgetD data "size" (.int 50)),
           ("color", dgetD data "color" (.str "blue")),
           ("name", dgetD data "name" (.str "Token")),
           ("portraitUrl", dget data "portraitUrl")]]) :=
  ⟨add_token_merge_fields, add_token_append_tokens, move_token_recover_tokens⟩

/-- Claim C5 witness: the merge branch applied to a concrete payload with a
free-form field. -/
theorem C5_witness :
    (([("id", JVal.str "a"), ("hp", JVal.int 7)].map Prod.fst).Nodup) ∧
    ∃ t' ∈ ((add_token "s1" [("id", .str "a"), ("hp", .int 7)]
      ⟨[[("id", .str "a"), ("x", .int 0)]], .null, none, none, []⟩).1).tokens,
      ∀ k v, (k, v) ∈ ([("id", JVal.str "a"), ("hp", JVal.int 7)] : Token) →
        tget t' k = some v :=
  ⟨by decide, C5_amended.1 "s1" [("id", .str "a"), ("hp", .int 7)]
    ⟨[[("id", .str "a"), ("x", .int 0)]], .null, none, none, []⟩
    [("id", .str "a"), ("x", .int 0)] (by decide) (by decide) (by decide)⟩

/-- Claim C6, as stated, is false: the synthesized identifier interpolates
the constant list length, not the token's position.  On two id-less tokens
the code's back-fill and the spec-modelled position-based back-fill
disagree, and the code assigns the same identifier to both tokens. -/
theorem C6_counterexample :
    backfillIds [[], []] ≠ backfillIdsSpec [[], []] ∧
    (backfillIds [[], []]).map (fun t => tget t "id") =
      [some (.str (synthId 2 [])), some (.str (synthId 2 []))] := by decide

/-- Claim C6 (amended): during `request_initial_state` every token whose
`id` is missing or falsy is assigned a synthesized identifier derived from
the total length of the token list and a hash of the token's content;
tokens with a truthy `id` are left unchanged, and the reply is emitted to
the requesting session only. -/
theorem C6_amended :
    (∀ sid now w, ((request_initial_state sid now w).1).tokens.length =
       w.tokens.length) ∧
    (∀ sid now w (i : Nat) (t : Token), w.tokens[i]? = some t →
       ((request_initial_state sid now w).1).tokens[i]? =
         some (if truthy (dget t "id") then t
               else dset t "id" (.str (synthId w.tokens.length t)))) ∧
    (∀ sid now w, (request_initial_state sid now w).2 =
       [.emit "initial_state"
          (.obj [("tokens",
                  .arr (((request_initial_state sid now w).1).tokens.map .obj)),
                 ("map", if truthy w.map then
                    .str (pyStr w.map ++ "?t=" ++ toString now) else w.map)])
          (.only sid)]) := by
  refine ⟨?_, ?_, ?_⟩
  · intro sid now w
    simp [request_initial_state, backfillIds]
  · intro sid now w i t ht
    show (backfillIds w.tokens)[i]? = _
    unfold backfillIds
    rw [List.getElem?_map, ht]
    rfl
  · intro sid now w
    rfl

/-- Claim C6 witness: the amended back-fill property applied to the second
token of a concrete two-token state. -/
theorem C6_witness :
    ([[("id", JVal.str "a")], []] : List Token)[1]? = some [] ∧
    ((request_initial_state "s1" 0
        ⟨[[("id", .str "a")], []], .null, none, none, []⟩).1).tokens[1]? =
      some (if truthy (dget ([] : Token) "id") then ([] : Token)
            else dset [] "id" (.str (synthId 2 []))) :=
  ⟨by decide, C6_amended.2.1 "s1" 0
    ⟨[[("id", .str "a")], []], .null, none, none, []⟩ 1 [] (by decide)⟩

/-- Claim C7: a `change_map` whose `map` value is a non-empty string not
beginning with the inline image prefix stores that literal string in shared
state, writes it to the map record, and broadcasts `map_changed` to every
session with the string suffixed by the cache-busting timestamp. -/
theorem C7_change_map_literal (sid : String) (now : Nat) (data : Token)
    (w : World) (s : String) (hm : tget data "map" = some (.str s))
    (hne : s.isEmpty = false)
    (hpre : strStartsWith s "data:image/" = false) :
    ((change_map sid now data w).1).map = .str s ∧
    (change_map sid now data w).2 =
      [.saveMap (.str s),
       .emit "map_changed"
         (.obj [("map", .str (s ++ "?t=" ++ toString now))]) .all] := by
  have hd : dget data "map" = JVal.str s := by simp [dget, hm]
  have htr : truthy (JVal.str s) = true := by simp [truthy, hne]
  unfold change_map
  rw [hd]
  dsimp only
  rw [if_neg (by rw [hne, hpre]; simp)]
  unfold change_map_direct save_map
  dsimp only
  rw [if_neg (by rw [htr]; simp)]
  rw [if_neg (by rw [hpre]; simp)]
  exact ⟨rfl, rfl⟩

/-- Claim C7 witness: the literal-URL property at a concrete input. -/
theorem C7_witness :
    tget [("map", JVal.str "https://host/x.png")] "map" =
      some (JVal.str "https://host/x.png") ∧
    ((change_map "s1" 7 [("map", .str "https://host/x.png")]
        ⟨[], .null, none, none, []⟩).1).map = .str "https://host/x.png" ∧
    (change_map "s1" 7 [("map", .str "https://host/x.png")]
        ⟨[], .null, none, none, []⟩).2 =
      [.saveMap (.str "https://host/x.png"),
       .emit "map_changed"
         (.obj [("map", .str ("https://host/x.png" ++ "?t=" ++ toString 7))])
         .all] :=
  ⟨by decide,
   (C7_change_map_literal "s1" 7 [("map", .str "https://host/x.png")]
     ⟨[], .null, none, none, []⟩ "https://host/x.png"
     (by decide) (by decide) (by decide)).1,
   (C7_change_map_literal "s1" 7 [("map", .str "https://host/x.png")]
     ⟨[], .null, none, none, []⟩ "https://host/x.png"
     (by decide) (by decide) (by decide)).2⟩

theorem isPrefixOf_append (l rest : List Char) :
    l.isPrefixOf (l ++ rest) = true := by
  induction l with
  | nil => simp [List.isPrefixOf]
  | cons c cs ih => simp [List.isPrefixOf, ih]

theorem strStartsWith_append (pre rest : String) :
    strStartsWith (pre ++ rest) pre = true := by
  unfold strStartsWith
  have h : (pre ++ rest).toList = pre.toList ++ rest.toList := by
    simp [String.toList]
  rw [h]
  exact isPrefixOf_append _ _

theorem extract_cases (url : String) (dir : List String) :
    ((extract_and_save_map_image url dir).1 = none ∧
      ((extract_and_save_map_image url dir).2 = dir ∨
       (extract_and_save_map_image url dir).2 =
         dir.filter (fun f => !(strStartsWith f "current_map.")))) ∨
    ∃ ext, extract_and_save_map_image url dir =
      (some ("/maps/" ++ ("current_map." ++ ext)),
       dir.filter (fun f => !(strStartsWith f "current_map.")) ++
         ["current_map." ++ ext]) := by
  unfold extract_and_save_map_image
  dsimp only
  repeat' split
  all_goals first
  | exact Or.inl ⟨rfl, Or.inl rfl⟩
  | exact Or.inl ⟨rfl, Or.inr rfl⟩
  | exact Or.inr ⟨_, rfl⟩

theorem filter_current_of_filtered (dir : List String) :
    ((dir.filter (fun f => !(strStartsWith f "current_map."))).filter
      (fun f => strStartsWith f "current_map.")) = [] := by
  rw [List.filter_filter]
  rw [List.filter_eq_nil_iff]
  intro a _
  cases h : strStartsWith a "current_map." <;> simp [h]

theorem extract_success_count {url : String} {dir : List String} {p : String}
    (h : (extract_and_save_map_image url dir).1 = some p) :
    ((extract_and_save_map_image url dir).2.filter
      (fun f => strStartsWith f "current_map.")).length ≤ 1 := by
  rcases extract_cases url dir with ⟨hn, _⟩ | ⟨ext, he⟩
  · rw [hn] at h
    cases h
  · rw [he]
    dsimp only
    rw [List.filter_append, filter_current_of_filtered]
    simp [strStartsWith_append]

theorem extract_failure_sublist {url : String} {dir : List String}
    (h : (extract_and_save_map_image url dir).1 = none) :
    List.Sublist (extract_and_save_map_image url dir).2 dir := by
  rcases extract_cases url dir with ⟨hn, hd | hd⟩ | ⟨ext, he⟩
  · rw [hd]
  · rw [hd]
    exact List.filter_sublist dir
  · rw [he] at h
    cases h

/-- Claim C8: `extract_and_save_map_image` on a png data URL returns the
relative path "/maps/current_map.png" (ending in ".png"); every successful
call leaves at most one `current_map.*` file in the images directory; a
second call with a different MIME subtype removes the old file; and every
malformed input — wrong prefix, missing comma, undecodable payload —
returns `none` and writes no new file (the resulting directory is a
sublist of the old one). -/
theorem C8_extract_image :
    (extract_and_save_map_image "data:image/png;base64,AAAA" []).1 =
      some "/maps/current_map.png" ∧
    strEndsWith "/maps/current_map.png" ".png" = true ∧
    (∀ url dir p, (extract_and_save_map_image url dir).1 = some p →
       ((extract_and_save_map_image url dir).2.filter
           (fun f => strStartsWith f "current_map.")).length ≤ 1) ∧
    (∀ url dir, (extract_and_save_map_image url dir).1 = none →
       List.Sublist (extract_and_save_map_image url dir).2 dir) ∧
    (extract_and_save_map_image "data:image/jpeg;base64,AAAA"
        (extract_and_save_map_image "data:image/png;base64,AAAA" []).2).2 =
      ["current_map.jpeg"] ∧
    extract_and_save_map_image "http://h/x.png" ["current_map.png"] =
      (none, ["current_map.png"]) ∧
    extract_and_save_map_image "data:image/pngAAAA" ["current_map.png"] =
      (none, ["current_map.png"]) ∧
    (extract_and_save_map_image "data:image/png;base64,AAA"
        ["current_map.png"]).1 = none :=
  ⟨by decide, by decide, fun _ _ _ h => extract_success_count h,
   fun _ _ h => extract_failure_sublist h, by decide, by decide, by decide,
   by decide⟩

/-- Claim C8 witness: the general success and failure properties applied to
concrete calls. -/
theorem C8_witness :
    (extract_and_save_map_image "data:image/png;base64,AAA"
        ["current_map.png", "other.txt"]).1 = none ∧
    List.Sublist
      (extract_and_save_map_image "data:image/png;base64,AAA"
        ["current_map.png", "other.txt"]).2
      ["current_map.png", "other.txt"] ∧
    ((extract_and_save_map_image "data:image/png;base64,AAAA"
        ["stale.png"]).2.filter
      (fun f => strStartsWith f "current_map.")).length ≤ 1 :=
  ⟨by decide,
   C8_extract_image.2.2.2.1 "data:image/png;base64,AAA"
     ["current_map.png", "other.txt"] (by decide),
   C8_extract_image.2.2.1 "data:image/png;base64,AAAA" ["stale.png"]
     "/maps/current_map.png" (by decide)⟩

/-- Claim C9: for every token list held by the server, `save_tokens`
followed by `load_saved_tokens` (a simulated restart reading the file just
written) reproduces the token list field for field. -/
theorem C9_roundtrip (w : World) :
    load_saved_tokens (fileRead ((save_tokens w).1).tokensFile) =
      ((save_tokens w).1).tokens := by
  show load_saved_tokens (.ok (tokensDoc w.tokens)) = w.tokens
  unfold load_saved_tokens tokensDoc
  dsimp only
  rw [show tget [("tokens", JVal.arr (w.tokens.map .obj))] "tokens" =
      some (JVal.arr (w.tokens.map .obj)) from by simp [tget]]
  dsimp only
  rw [List.map_map]
  have hcomp : asTokenObj ∘ JVal.obj = id := funext fun t => rfl
  rw [hcomp, List.map_id]

/-- Claim C10: `load_saved_map` yields `none` for an absent, unreadable or
undecodable record, for a record without a `map` entry, and for a record
whose `map` entry is null or the empty string; it yields a value only when
the record holds a truthy (non-empty) map value. -/
theorem C10_load_map :
    load_saved_map .absent = none ∧
    load_saved_map .unreadable = none ∧
    load_saved_map .badJson = none ∧
    (∀ fields : Token, tget fields "map" = none →
       load_saved_map (.ok (.obj fields)) = none) ∧
    (∀ fields : Token, tget fields "map" = some JVal.null →
       load_saved_map (.ok (.obj fields)) = none) ∧
    (∀ fields : Token, tget fields "map" = some (.str "") →
       load_saved_map (.ok (.obj fields)) = none) ∧
    (∀ f v, load_saved_map f = some v → truthy v = true) := by
  refine ⟨rfl, rfl, rfl, ?_, ?_, ?_, ?_⟩
  · intro fields h
    unfold load_saved_map
    dsimp only
    rw [h]
  · intro fields h
    unfold load_saved_map
    dsimp only
    rw [h]
    rfl
  · intro fields h
    unfold load_saved_map
    dsimp only
    rw [h]
    rfl
  · intro f v h
    cases f with
    | ok doc =>
      cases doc with
      | obj fields =>
        unfold load_saved_map at h
        dsimp only at h
        cases hm : tget fields "map" with
        | none => rw [hm] at h; cases h
        | some u =>
          rw [hm] at h
          dsimp only at h
          by_cases ht : truthy u = true
          · rw [if_pos ht] at h
            cases h
            exact ht
          · rw [if_neg ht] at h
            cases h
      | null => cases h
      | bool b => cases h
      | int n => cases h
      | str s => cases h
      | arr xs => cases h
    | absent => cases h
    | unreadable => cases h
    | badJson => cases h

/-- Claim C10 witness: a parsed record whose `map` entry is null loads as
`none`. -/
theorem C10_witness :
    tget [("map", JVal.null)] "map" = some JVal.null ∧
    load_saved_map (.ok (.obj [("map", JVal.null)])) = none :=
  ⟨by decide, C10_load_map.2.2.2.2.1 [("map", JVal.null)] (by decide)⟩
